import Mathlib

set_option maxRecDepth 8000

/-
  Verification development for the annotation editor panel
  (src/EditAnnotations.cpp) and the edit-control wrapper
  (src/wingui/EditCtrl.cpp) of the reviewed PDF viewer code.

  Shallow embedding conventions:
  - COLORREF (a 32-bit packed abgr color, alpha in the top byte) is a Nat;
    arithmetic that depends on the 24-bit rgb payload is written with
    explicit % 0x1000000.
  - The seqstrings tables (NUL-separated C string sequences such as
    gColors) become List String; seqstrings.IdxToStr becomes List.get?,
    and the while loops over them become structural recursion over the
    list.
  - Nullable C pointers become Option; a fatal access (out-of-range
    Vec.at, null dereference) is an outer Option none, never a defined
    result.
  - Widget mutation (SetIsVisible, SetText, SetItems,
    SetCurrentSelection) becomes explicit state passing over small
    records holding the observable widget state.
-/

namespace EditAnnotations

/-- AnnotationType from Annotation.h: the subset of constructors the
reviewed code mentions, plus a few members (Link, Popup, Redact, Widget)
that exist in the enum but are outside the color allow-list, and the
Unknown sentinel used when no annotation is selected. -/
inductive AnnotationType where
  | Text
  | Link
  | FreeText
  | Line
  | Square
  | Circle
  | Polygon
  | PolyLine
  | Highlight
  | Underline
  | Squiggly
  | StrikeOut
  | Redact
  | Stamp
  | Caret
  | Ink
  | Popup
  | FileAttachment
  | Sound
  | Widget
  | Unknown
deriving DecidableEq

/-- The observable fields of an Annotation object the reviewed code
reads or writes (type, page, author, modification date, popup id,
contents, icon name, color, and the changed/deleted markers). -/
structure Annotation where
  type : AnnotationType
  pageNo : Int
  author : String
  modificationDate : Int
  popupId : Int
  contents : String
  iconName : String
  color : Nat
  isChanged : Bool
  isDeleted : Bool
deriving DecidableEq

/-- Modelled from the spec: the "unset/none" color sentinel of the
repo's color utilities (the all-ones COLORREF), used as palette entry 0
and as the value stored when no palette entry applies. Its exact value
is never compared against palette entries 1.. by the reviewed code. -/
def ColorUnset : Nat := 0xffffffff

/-- gColors seqstring: the fixed palette of color names. -/
def gColors : List String :=
  ["None", "Aqua", "Black", "Blue", "Fuchsia", "Gray", "Green", "Lime",
   "Maroon", "Navy", "Olive", "Orange", "Purple", "Red", "Silver", "Teal",
   "White", "Yellow"]

/-- gColorsValues: the palette values in abgr COLORREF format, index
aligned with gColors. -/
def gColorsValues : List Nat :=
  [ColorUnset,
   0xffffff00,
   0xff000000,
   0xffff0000,
   0xffff00ff,
   0xff808080,
   0xff008000,
   0xff00ff00,
   0xff000080,
   0xff800000,
   0xff008080,
   0xff00a5ff,
   0xff800080,
   0xff0000ff,
   0xffc0c0c0,
   0xff808000,
   0xffffffff,
   0xff00ffff]

/-- gTextIcons seqstring. -/
def gTextIcons : List String :=
  ["Comment", "Help", "Insert", "Key", "NewParagraph", "Note", "Paragraph"]

/-- gFileAttachmentUcons seqstring. -/
def gFileAttachmentUcons : List String :=
  ["Graph", "Paperclip", "PushPin", "Tag"]

/-- gSoundIcons seqstring. -/
def gSoundIcons : List String :=
  ["Speaker", "Mic"]

/-- gStampIcons seqstring. -/
def gStampIcons : List String :=
  ["Approved", "AsIs", "Confidential", "Departmental", "Draft",
   "Experimental", "Expired", "Final", "ForComment", "ForPublicRelease",
   "NotApproved", "NotForPublicRelease", "Sold", "TopSecret"]

/-- gAnnotsWithColor: the annotation types whose color is editable. -/
def gAnnotsWithColor : List AnnotationType :=
  [AnnotationType.Stamp, AnnotationType.Text, AnnotationType.FileAttachment,
   AnnotationType.Sound, AnnotationType.Caret, AnnotationType.FreeText,
   AnnotationType.Ink, AnnotationType.Line, AnnotationType.Square,
   AnnotationType.Circle, AnnotationType.Polygon, AnnotationType.PolyLine,
   AnnotationType.Highlight, AnnotationType.Underline,
   AnnotationType.StrikeOut, AnnotationType.Squiggly]

/-- Modelled from the spec: ColorSetAlpha from the repo's color
utilities, which are not among the reviewed files; the data model calls
the color a "packed RGB/alpha value", and the helper forces the alpha
channel (the top byte of the abgr word) to the given value, keeping the
low 24 rgb bits. -/
def ColorSetAlpha (c a : Nat) : Nat := c % 0x1000000 + a * 0x1000000

/-- str.Eq on nullable C strings: true when both are null or both
non-null and equal. In every reviewed call site the first argument is a
non-null seqstring entry. -/
def strEq : Option String → Option String → Bool
  | some a, some b => a == b
  | none, none => true
  | _, _ => false

/-- The loop of GetKnownColorName: scan gColorsValues from index 1
(skipping the None sentinel) for the first value equal to c2 and return
the gColors name at that index. The list argument is the remaining
suffix of gColorsValues and i the absolute index of its head. -/
def getKnownColorNameLoop (c2 : Nat) : List Nat → Nat → Option String
  | [], _ => none
  | v :: vs, i =>
    if c2 = v then gColors.get? i else getKnownColorNameLoop c2 vs (i + 1)

/-- GetKnownColorName: force alpha to 0xff, then look the value up among
palette entries 1.., returning the matching name or null. -/
def GetKnownColorName (c : Nat) : Option String :=
  getKnownColorNameLoop (ColorSetAlpha c 0xff) (gColorsValues.drop 1) 1

/-- The loop of FindStringInArray: walk the seqstring entries keeping
the running index i, returning the index of the first entry equal to
toFind. -/
def findStringInArrayLoop (toFind : Option String) (valIfNotFound : Int) :
    List String → Int → Int
  | [], _ => valIfNotFound
  | s :: rest, i =>
    if strEq (some s) toFind then i
    else findStringInArrayLoop toFind valIfNotFound rest (i + 1)

/-- FindStringInArray: index of the first entry equal to toFind, or
valIfNotFound when no entry matches (also when toFind is null, since
str.Eq of a non-null entry and null is false). -/
def FindStringInArray (items : List String) (toFind : Option String)
    (valIfNotFound : Int) : Int :=
  findStringInArrayLoop toFind valIfNotFound items 0

/-- IsAnnotationTypeInArray: linear membership scan. -/
def IsAnnotationTypeInArray (arr : List AnnotationType)
    (toFind : AnnotationType) : Bool :=
  arr.any (fun t => toFind = t)

/-- Observable state of a StaticCtrl. -/
structure StaticCtrlState where
  text : String
  isVisible : Bool
deriving DecidableEq

/-- Observable state of an EditCtrl. -/
structure EditCtrlState where
  text : String
  isVisible : Bool
deriving DecidableEq

/-- Observable state of a DropDownCtrl. -/
structure DropDownCtrlState where
  items : List String
  currentSelection : Int
  isVisible : Bool
deriving DecidableEq

/-- The literal newline string. -/
def strLF : String := "\n"

/-- The platform line-ending string. -/
def strCRLF : String := "\r\n"

/-- Does the character list start with the pattern? -/
def startsWithChars : List Char → List Char → Bool
  | [], _ => true
  | _ :: _, [] => false
  | p :: ps, c :: cs => p == c && startsWithChars ps cs

/-- Modelled from the spec: the replace loop of the repo string utility
used by ShowAnnotationsContents (not among the reviewed files): walk the
text left to right, replacing every non-overlapping occurrence of the
pattern by the replacement. The fuel argument only justifies structural
termination; with fuel at least the text length and a non-empty pattern
it is never exhausted. -/
def replaceChars (pat rep : List Char) : Nat → List Char → List Char
  | _, [] => []
  | 0, s => s
  | Nat.succ fuel, c :: cs =>
    if startsWithChars pat (c :: cs) then
      rep ++ replaceChars pat rep fuel (List.drop pat.length (c :: cs))
    else
      c :: replaceChars pat rep fuel cs

/-- Modelled from the spec: str.Str.Replace, replacing every occurrence
of pat in s by rep. -/
def strReplace (s pat rep : String) : String :=
  String.mk (replaceChars pat.data rep.data s.data.length s.data)

/-- ShowAnnotationsContents: both the Contents label and the contents
editor are visible exactly when an annotation is selected; when visible,
the editor text is the contents with every newline replaced by the
platform line ending (str.Str.Replace replaces all occurrences). -/
def ShowAnnotationsContents (annot : Option Annotation)
    (st : StaticCtrlState) (ed : EditCtrlState) :
    StaticCtrlState × EditCtrlState :=
  match annot with
  | none => ({ st with isVisible := false }, { ed with isVisible := false })
  | some a =>
    let s := strReplace a.contents strLF strCRLF
    ({ st with isVisible := true }, { text := s, isVisible := true })

/-- The switch in ShowAnnotationsIcon choosing the icon seqstring for
the annotation type; null for types without icons. -/
def iconsForAnnotationType : AnnotationType → Option (List String)
  | AnnotationType.Text => some gTextIcons
  | AnnotationType.FileAttachment => some gFileAttachmentUcons
  | AnnotationType.Sound => some gSoundIcons
  | AnnotationType.Stamp => some gStampIcons
  | _ => none

/-- The iconName local of ShowAnnotationsIcon: empty when no annotation
is selected. -/
def selectedIconName (annot : Option Annotation) : String :=
  match annot with
  | some a => a.iconName
  | none => ""

/-- The icons local of ShowAnnotationsIcon: the icon seqstring for the
selected type, but only when the icon name is non-empty (the initial
isVisible); null otherwise or when the type has no icon table. -/
def selectedIcons (annot : Option Annotation) : Option (List String) :=
  if !(selectedIconName annot).isEmpty then
    match annot with
    | some a => iconsForAnnotationType a.type
    | none => none
  else none

/-- ShowAnnotationsIcon: visible only when the selected annotation has a
non-empty icon name and its type has an icon table; then the dropdown
items are that table and the selection is the index of the entry equal
to the icon name, with fallback 0. -/
def ShowAnnotationsIcon (annot : Option Annotation)
    (st : StaticCtrlState) (dd : DropDownCtrlState) :
    StaticCtrlState × DropDownCtrlState :=
  match selectedIcons annot with
  | none => ({ st with isVisible := false }, { dd with isVisible := false })
  | some ic =>
    ({ st with isVisible := true },
     { items := ic,
       currentSelection := FindStringInArray ic (some (selectedIconName annot)) 0,
       isVisible := true })

/-- The annotType local of ShowAnnotationsColor: the type of the
selection, Unknown when nothing is selected. -/
def selectedAnnotType (annot : Option Annotation) : AnnotationType :=
  match annot with
  | some a => a.type
  | none => AnnotationType.Unknown

/-- The color read annot.Color() performs in the visible branch of
ShowAnnotationsColor; the null case can never be reached there because
Unknown is not in the allow-list. -/
def selectedColor (annot : Option Annotation) : Nat :=
  match annot with
  | some a => a.color
  | none => 0

/-- ShowAnnotationsColor: visible exactly when the (possibly Unknown)
type of the selection is in gAnnotsWithColor; when visible, the dropdown
items are gColors and the selection is FindStringInArray of the known
color name with fallback 0. -/
def ShowAnnotationsColor (annot : Option Annotation)
    (st : StaticCtrlState) (dd : DropDownCtrlState) :
    StaticCtrlState × DropDownCtrlState :=
  if IsAnnotationTypeInArray gAnnotsWithColor (selectedAnnotType annot) then
    ({ st with isVisible := true },
     { items := gColors,
       currentSelection :=
         FindStringInArray gColors (GetKnownColorName (selectedColor annot)) 0,
       isVisible := true })
  else
    ({ st with isVisible := false }, { dd with isVisible := false })

/-- Vec.at of the repository vector type, which is not among the
reviewed files: an indexed access that is only defined for an in-range
index; an out-of-range index is a fatal error (modelled as none), never
a defined result. -/
def vecAt (v : List Annotation) (idx : Nat) : Option Annotation :=
  v.get? idx

/-- The selection update of ListBoxSelectionChanged: the annot reference
is first nulled; for itemNo >= 0 it is set to annotations.at(itemNo).
The outer Option is the crash model: none means the handler performs an
out-of-range vector access and has no defined result. -/
def ListBoxSelectionChanged (annotations : List Annotation) (itemNo : Int) :
    Option (Option Annotation) :=
  if 0 ≤ itemNo then
    match vecAt annotations itemNo.toNat with
    | some a => some (some a)
    | none => none
  else
    some none

/-- EnableSaveIfAnnotationsChanged: scan the (possibly null) annotation
list for an entry marked changed or deleted; the save button enabled
state becomes the scan result. -/
def EnableSaveIfAnnotationsChanged (annotations : Option (List Annotation)) :
    Bool :=
  match annotations with
  | some l => l.any (fun annot => annot.isChanged || annot.isDeleted)
  | none => false

/-- Modelled from the spec: Annotation.SetIconName (Annotation.cpp is
not among the reviewed files) writes the new value onto the annotation
and marks it changed. -/
def SetIconName (a : Annotation) (s : String) : Annotation :=
  { a with iconName := s, isChanged := true }

/-- Modelled from the spec: Annotation.SetColor (Annotation.cpp is not
among the reviewed files) writes the new value onto the annotation and
marks it changed. -/
def SetColor (a : Annotation) (c : Nat) : Annotation :=
  { a with color := c, isChanged := true }

/-- DropDownIconSelectionChanged: set the icon name of the selected
annotation (sel is the position of the selected annotation in the list;
the change is visible through the list since the panel stores a
reference) and recompute the save button state. A null selected
annotation would be a fatal dereference, modelled as none. -/
def DropDownIconSelectionChanged (annotations : List Annotation) (sel : Nat)
    (item : String) : Option (List Annotation × Bool) :=
  match annotations.get? sel with
  | some a =>
    some (annotations.set sel (SetIconName a item),
      EnableSaveIfAnnotationsChanged
        (some (annotations.set sel (SetIconName a item))))
  | none => none

/-- The col local of DropDownColorSelectionChanged: for idx < nColors
it becomes gColorsValues[idx] (a negative idx would be an out-of-range
array read, modelled as none); otherwise it keeps its ColorUnset
initializer (the hex-parsing branch is an unimplemented TODO). -/
def dropDownColorCol (idx : Int) : Option Nat :=
  if idx < (gColorsValues.length : Int) then
    if 0 ≤ idx then gColorsValues.get? idx.toNat else none
  else
    some ColorUnset

/-- DropDownColorSelectionChanged continued: the selected annotation
color is set to the chosen value, it is marked changed, and the save
button state is recomputed. -/
def DropDownColorSelectionChanged (annotations : List Annotation) (sel : Nat)
    (idx : Int) : Option (List Annotation × Bool) :=
  match annotations.get? sel, dropDownColorCol idx with
  | some a, some c =>
    some (annotations.set sel (SetColor a c),
      EnableSaveIfAnnotationsChanged
        (some (annotations.set sel (SetColor a c))))
  | _, _ => none

end EditAnnotations

namespace EditCtrl

/-- The EN_CHANGE notification code (HIWORD of wparam). -/
def EN_CHANGE : Nat := 0x0300

/-- Observable fields of a WndEvent reaching HandleWM_COMMAND: the
HIWORD of wparam and the handled flag read by the dispatcher to stop
propagation. -/
structure WndEvent where
  hiwordWParam : Nat
  didHandle : Bool
deriving DecidableEq

/-- The event handed to the OnTextChanged callback; the callback may set
didHandle. -/
structure EditTextChangedEvent where
  text : String
  didHandle : Bool

/-- HandleWM_COMMAND of EditCtrl. On EN_CHANGE with a registered
OnTextChanged callback, a fresh EditTextChangedEvent carrying the
current control text is passed to the callback; CopyWndEvent (modelled
from the spec: on scope exit the handled flag the callback set is copied
back onto the original event, which is how propagation stops) updates
ev.didHandle. The first component records the text the callback was
invoked with, none when no callback ran. -/
def HandleWM_COMMAND
    (onTextChanged : Option (EditTextChangedEvent → EditTextChangedEvent))
    (getTextResult : String) (ev : WndEvent) : Option String × WndEvent :=
  if ev.hiwordWParam = EN_CHANGE then
    match onTextChanged with
    | some cb =>
      let a : EditTextChangedEvent :=
        { text := getTextResult, didHandle := false }
      let a2 := cb a
      (some getTextResult, { ev with didHandle := a2.didHandle })
    | none => (none, ev)
  else
    (none, ev)

end EditCtrl

namespace EditAnnotations

/-- A concrete annotation builder used by witnesses and
counterexamples. -/
def mkAnnot (t : AnnotationType) (contents iconName : String)
    (color : Nat) : Annotation :=
  { type := t, pageNo := 1, author := "", modificationDate := 0,
    popupId := -1, contents := contents, iconName := iconName,
    color := color, isChanged := false, isDeleted := false }

/-- Spec-side definition (follows the claim wording, to compare with the
source FindStringInArray): the index of the first entry equal to nm,
none when no entry matches. -/
def specIndexOfMatch : List String → String → Option Nat
  | [], _ => none
  | s :: rest, nm =>
    if s = nm then some 0 else (specIndexOfMatch rest nm).map (· + 1)

/-- C1 counterexample: selecting index 0 with an empty annotation list
is an out-of-range selection; the handler performs an out-of-range
vector access (no defined result) instead of clearing the selection to
null as the claim states. -/
theorem listBox_out_of_range_not_cleared :
    ListBoxSelectionChanged ([] : List Annotation) 0 = none ∧
    ListBoxSelectionChanged ([] : List Annotation) 0 ≠ some none := by
  decide

/-- C1 (amended): a negative index clears the selected-annotation
reference; an in-range index sets it to the i-th element of the list; a
non-negative out-of-range index leads to an out-of-range vector access
with no defined result (it does not clear the selection). -/
theorem listBoxSelectionChanged_spec (annots : List Annotation)
    (itemNo : Int) :
    (itemNo < 0 → ListBoxSelectionChanged annots itemNo = some none) ∧
    (∀ h : itemNo.toNat < annots.length, 0 ≤ itemNo →
      ListBoxSelectionChanged annots itemNo =
        some (some (annots.get ⟨itemNo.toNat, h⟩))) ∧
    (0 ≤ itemNo → (annots.length : Int) ≤ itemNo →
      ListBoxSelectionChanged annots itemNo = none) := by
  refine ⟨?_, ?_, ?_⟩
  · intro h
    unfold ListBoxSelectionChanged
    rw [if_neg (by omega)]
  · intro h h0
    unfold ListBoxSelectionChanged vecAt
    rw [if_pos h0, List.get?_eq_get h]
  · intro h0 hlen
    unfold ListBoxSelectionChanged vecAt
    rw [if_pos h0, List.get?_eq_none.mpr (by omega)]

/-- C1 witness: on a one-element list, selecting index 0 yields that
element. -/
theorem listBoxSelectionChanged_spec_witness :
    (0 : Int) ≤ 0 ∧
    Int.toNat 0 < [mkAnnot AnnotationType.Text ("") ("") 0].length ∧
    ListBoxSelectionChanged [mkAnnot AnnotationType.Text ("") ("") 0] 0 =
      some (some (mkAnnot AnnotationType.Text ("") ("") 0)) := by
  refine ⟨by decide, by decide, ?_⟩
  have h := (listBoxSelectionChanged_spec
    [mkAnnot AnnotationType.Text ("") ("") 0] 0).2.1 (by decide) (by decide)
  simpa using h

/-- C2 counterexample: for a selected annotation whose contents string
is empty, the contents editor is visible, not hidden as the claim
states (visibility only tracks whether an annotation is selected). -/
theorem contents_editor_visible_for_empty_contents :
    (mkAnnot AnnotationType.Text ("") ("") 0).contents = "" ∧
    (ShowAnnotationsContents (some (mkAnnot AnnotationType.Text ("") ("") 0))
        ⟨"", false⟩ ⟨"", false⟩).2.isVisible = true := by
  decide

/-- C2 (amended): the contents label and editor are visible exactly
when an annotation is selected, regardless of whether its contents are
empty; when visible, the editor shows the contents with every newline
replaced by the platform line ending. -/
theorem showAnnotationsContents_spec (annot : Option Annotation)
    (st : StaticCtrlState) (ed : EditCtrlState) :
    ((ShowAnnotationsContents annot st ed).1.isVisible = annot.isSome) ∧
    ((ShowAnnotationsContents annot st ed).2.isVisible = annot.isSome) ∧
    (∀ a, annot = some a →
      (ShowAnnotationsContents annot st ed).2.text =
        strReplace a.contents strLF strCRLF) := by
  cases annot <;> simp [ShowAnnotationsContents]

/-- C2 witness: a selected annotation with contents containing a
newline gets a visible editor showing the text with the newline
expanded to the platform line ending. -/
theorem showAnnotationsContents_spec_witness :
    (ShowAnnotationsContents (some (mkAnnot AnnotationType.Text ("a\nb") ("") 0))
        ⟨"", false⟩ ⟨"", false⟩).2.text = "a\r\nb" := by
  have h := (showAnnotationsContents_spec
    (some (mkAnnot AnnotationType.Text ("a\nb") ("") 0))
    ⟨"", false⟩ ⟨"", false⟩).2.2 (mkAnnot AnnotationType.Text ("a\nb") ("") 0) rfl
  rw [h]
  decide

end EditAnnotations

namespace EditAnnotations

/-- The save-enable scan is true exactly when some annotation is marked
changed or deleted. -/
theorem enableSave_iff (l : List Annotation) :
    EnableSaveIfAnnotationsChanged (some l) = true ↔
      ∃ a ∈ l, a.isChanged = true ∨ a.isDeleted = true := by
  simp [EnableSaveIfAnnotationsChanged, List.any_eq_true]

/-- C4: the save button state computed by EnableSaveIfAnnotationsChanged
is true exactly when some annotation in the list is marked changed or
deleted, and after either field-edit handler (icon or color) the save
button state recorded in the result satisfies the same equivalence for
the updated list. -/
theorem save_enabled_iff_changed_or_deleted (annotations : List Annotation) :
    (EnableSaveIfAnnotationsChanged (some annotations) = true ↔
      ∃ a ∈ annotations, a.isChanged = true ∨ a.isDeleted = true) ∧
    (∀ sel item r, DropDownIconSelectionChanged annotations sel item = some r →
      (r.2 = true ↔ ∃ a ∈ r.1, a.isChanged = true ∨ a.isDeleted = true)) ∧
    (∀ sel idx r, DropDownColorSelectionChanged annotations sel idx = some r →
      (r.2 = true ↔ ∃ a ∈ r.1, a.isChanged = true ∨ a.isDeleted = true)) := by
  refine ⟨enableSave_iff annotations, ?_, ?_⟩
  · intro sel item r h
    unfold DropDownIconSelectionChanged at h
    cases hget : annotations.get? sel with
    | none => rw [hget] at h; cases h
    | some a =>
      rw [hget] at h
      injection h with h2
      subst h2
      exact enableSave_iff _
  · intro sel idx r h
    unfold DropDownColorSelectionChanged at h
    cases hget : annotations.get? sel with
    | none =>
      rw [hget] at h
      cases hcol : dropDownColorCol idx with
      | none => rw [hcol] at h; cases h
      | some c => rw [hcol] at h; cases h
    | some a =>
      rw [hget] at h
      cases hcol : dropDownColorCol idx with
      | none => rw [hcol] at h; cases h
      | some c =>
        rw [hcol] at h
        injection h with h2
        subst h2
        exact enableSave_iff _

/-- C4 witness: a single changed annotation enables the save button. -/
theorem save_enabled_iff_changed_or_deleted_witness :
    EnableSaveIfAnnotationsChanged
      (some [{ mkAnnot AnnotationType.Text ("") ("") 0 with isChanged := true }]) = true := by
  exact (save_enabled_iff_changed_or_deleted
    [{ mkAnnot AnnotationType.Text ("") ("") 0 with isChanged := true }]).1.mpr
    ⟨{ mkAnnot AnnotationType.Text ("") ("") 0 with isChanged := true },
      by simp, Or.inl rfl⟩

/-- C5: for an in-range palette index and a selected annotation, the
color handler succeeds and the selected annotation in the updated list
carries exactly the palette value at that index as its color and is
marked changed. -/
theorem dropDownColor_sets_palette_value (annotations : List Annotation)
    (sel : Nat) (idx : Int) (a : Annotation)
    (hsel : annotations.get? sel = some a)
    (h0 : 0 ≤ idx) (hlt : idx < (gColorsValues.length : Int)) :
    ∃ l2 b, DropDownColorSelectionChanged annotations sel idx = some (l2, b) ∧
      ∃ v, gColorsValues.get? idx.toNat = some v ∧
        l2.get? sel = some { a with color := v, isChanged := true } := by
  obtain ⟨hlen, -⟩ := List.get?_eq_some.mp hsel
  have hvn : idx.toNat < gColorsValues.length := by omega
  have hv : gColorsValues.get? idx.toNat =
      some (gColorsValues.get ⟨idx.toNat, hvn⟩) := List.get?_eq_get hvn
  refine ⟨annotations.set sel
      { a with color := gColorsValues.get ⟨idx.toNat, hvn⟩, isChanged := true },
    EnableSaveIfAnnotationsChanged (some (annotations.set sel
      { a with color := gColorsValues.get ⟨idx.toNat, hvn⟩, isChanged := true })),
    ?_, gColorsValues.get ⟨idx.toNat, hvn⟩, hv, ?_⟩
  · unfold DropDownColorSelectionChanged dropDownColorCol
    rw [hsel, if_pos hlt, if_pos h0, hv]
    rfl
  · simp [List.get?_eq_getElem?, List.getElem?_set_self', hlen,
      List.getElem?_eq_getElem, SetColor]

/-- C5 witness: choosing palette index 13 (Red) stores the red palette
value on the selected annotation and marks it changed. -/
theorem dropDownColor_sets_palette_value_witness :
    ([mkAnnot AnnotationType.Text ("") ("") 0].get? 0 =
      some (mkAnnot AnnotationType.Text ("") ("") 0)) ∧
    ((0 : Int) ≤ 13 ∧ (13 : Int) < (gColorsValues.length : Int)) ∧
    (∃ l2 b, DropDownColorSelectionChanged
        [mkAnnot AnnotationType.Text ("") ("") 0] 0 13 = some (l2, b) ∧
      ∃ v, gColorsValues.get? (Int.toNat 13) = some v ∧
        l2.get? 0 =
          some { mkAnnot AnnotationType.Text ("") ("") 0 with
                   color := v, isChanged := true }) :=
  ⟨by decide, ⟨by decide, by decide⟩,
    dropDownColor_sets_palette_value
      [mkAnnot AnnotationType.Text ("") ("") 0] 0 13
      (mkAnnot AnnotationType.Text ("") ("") 0)
      (by decide) (by decide) (by decide)⟩

/-- C6: when the type of the selection (Unknown when nothing is
selected) is not in the color allow-list, both the color label and the
color dropdown are hidden, whatever the color field holds. -/
theorem color_widgets_hidden_for_non_allowlisted_type
    (annot : Option Annotation) (st : StaticCtrlState) (dd : DropDownCtrlState)
    (h : selectedAnnotType annot ∉ gAnnotsWithColor) :
    (ShowAnnotationsColor annot st dd).1.isVisible = false ∧
    (ShowAnnotationsColor annot st dd).2.isVisible = false := by
  have hb : IsAnnotationTypeInArray gAnnotsWithColor
      (selectedAnnotType annot) = false := by
    rw [IsAnnotationTypeInArray, List.any_eq_false]
    intro t ht
    simp only [decide_eq_true_eq]
    rintro rfl
    exact h ht
  unfold ShowAnnotationsColor
  rw [hb]
  simp

/-- C6 witness: a selected Popup annotation (not in the allow-list) with
a non-zero color still has both color widgets hidden. -/
theorem color_widgets_hidden_witness :
    (selectedAnnotType (some (mkAnnot AnnotationType.Popup ("") ("") 5))
        ∉ gAnnotsWithColor) ∧
    (ShowAnnotationsColor (some (mkAnnot AnnotationType.Popup ("") ("") 5))
        ⟨"", false⟩ ⟨[], 0, false⟩).1.isVisible = false ∧
    (ShowAnnotationsColor (some (mkAnnot AnnotationType.Popup ("") ("") 5))
        ⟨"", false⟩ ⟨[], 0, false⟩).2.isVisible = false :=
  ⟨by decide,
    (color_widgets_hidden_for_non_allowlisted_type _ _ _ (by decide)).1,
    (color_widgets_hidden_for_non_allowlisted_type _ _ _ (by decide)).2⟩

end EditAnnotations

namespace EditAnnotations

/-- In-range color pick: the value is read from gColorsValues, stored on
the selected annotation with the changed marker, and the updated list
holds that annotation at the selected position. -/
theorem dropDownColor_inrange_eq (annotations : List Annotation) (sel : Nat)
    (idx : Int) (a : Annotation) (hsel : annotations.get? sel = some a)
    (h0 : 0 ≤ idx) (hlt : idx < (gColorsValues.length : Int)) :
    ∃ v, gColorsValues.get? idx.toNat = some v ∧
      DropDownColorSelectionChanged annotations sel idx =
        some (annotations.set sel { a with color := v, isChanged := true },
          EnableSaveIfAnnotationsChanged (some (annotations.set sel
            { a with color := v, isChanged := true }))) ∧
      (annotations.set sel { a with color := v, isChanged := true }).get? sel =
        some { a with color := v, isChanged := true } := by
  obtain ⟨hlen, -⟩ := List.get?_eq_some.mp hsel
  have hvn : idx.toNat < gColorsValues.length := by omega
  have hv : gColorsValues.get? idx.toNat =
      some (gColorsValues.get ⟨idx.toNat, hvn⟩) := List.get?_eq_get hvn
  refine ⟨gColorsValues.get ⟨idx.toNat, hvn⟩, hv, ?_, ?_⟩
  · unfold DropDownColorSelectionChanged dropDownColorCol
    rw [hsel, if_pos hlt, if_pos h0, hv]
    rfl
  · simp [List.get?_eq_getElem?, List.getElem?_set_self', hlen,
      List.getElem?_eq_getElem]

/-- For every palette index other than the None sentinel, looking the
palette value back up yields the name at the same index. -/
theorem roundtrip_core (i : Nat) (h1 : 1 ≤ i) (h2 : i < gColorsValues.length) :
    ∀ v, gColorsValues.get? i = some v →
      GetKnownColorName v = gColors.get? i := by
  rw [show gColorsValues.length = 18 from rfl] at h2
  interval_cases i <;>
    (intro v hv
     simp only [gColorsValues, ColorUnset, List.get?, Option.some.injEq] at hv
     subst hv
     decide)

/-- C3: choosing palette entry i (any entry except the index-0 None
sentinel) in the color picker stores the associated palette value on the
selected annotation, and deriving the display name back from the stored
color via the known-color lookup yields the name at the originally
chosen index. -/
theorem color_name_roundtrip (i : Nat) (h1 : 1 ≤ i)
    (h2 : i < gColorsValues.length)
    (annotations : List Annotation) (sel : Nat) (a : Annotation)
    (hsel : annotations.get? sel = some a) :
    ∃ l2 b, DropDownColorSelectionChanged annotations sel (i : Int) =
        some (l2, b) ∧
      ∃ a2, l2.get? sel = some a2 ∧
        GetKnownColorName a2.color = gColors.get? i := by
  have h0 : (0 : Int) ≤ (i : Int) := by omega
  have hlt : (i : Int) < (gColorsValues.length : Int) := by omega
  obtain ⟨v, hv, heq, hget⟩ :=
    dropDownColor_inrange_eq annotations sel (i : Int) a hsel h0 hlt
  have hti : (i : Int).toNat = i := by omega
  rw [hti] at hv
  refine ⟨_, _, heq, _, hget, ?_⟩
  exact roundtrip_core i h1 h2 v hv

/-- C3 witness: palette entry 17 (Yellow) round-trips. -/
theorem color_name_roundtrip_witness :
    (1 ≤ 17 ∧ 17 < gColorsValues.length ∧
      [mkAnnot AnnotationType.Text ("") ("") 0].get? 0 =
        some (mkAnnot AnnotationType.Text ("") ("") 0)) ∧
    (∃ l2 b, DropDownColorSelectionChanged
        [mkAnnot AnnotationType.Text ("") ("") 0] 0 ((17 : Nat) : Int) =
          some (l2, b) ∧
      ∃ a2, l2.get? 0 = some a2 ∧
        GetKnownColorName a2.color = gColors.get? 17) :=
  ⟨⟨by decide, by decide, by decide⟩,
    color_name_roundtrip 17 (by decide) (by decide)
      [mkAnnot AnnotationType.Text ("") ("") 0] 0
      (mkAnnot AnnotationType.Text ("") ("") 0) (by decide)⟩

end EditAnnotations

namespace EditAnnotations

/-- A null toFind never matches, so the loop returns the fallback. -/
theorem findLoop_none_toFind (items : List String) (v i : Int) :
    findStringInArrayLoop none v items i = v := by
  induction items generalizing i with
  | nil => rfl
  | cons s rest ih => simp [findStringInArrayLoop, strEq, ih]

/-- The source loop agrees with the spec-side first-match index, offset
by the running index. -/
theorem findLoop_some_toFind (items : List String) (nm : String) (v i : Int) :
    findStringInArrayLoop (some nm) v items i =
      (match specIndexOfMatch items nm with
       | some j => i + (j : Int)
       | none => v) := by
  induction items generalizing i with
  | nil => rfl
  | cons s rest ih =>
    by_cases h : s = nm
    · simp [findStringInArrayLoop, strEq, specIndexOfMatch, h]
    · rw [show findStringInArrayLoop (some nm) v (s :: rest) i =
            findStringInArrayLoop (some nm) v rest (i + 1) from by
          simp [findStringInArrayLoop, strEq, h]]
      rw [ih (i + 1)]
      simp only [specIndexOfMatch, if_neg h]
      cases hsp : specIndexOfMatch rest nm with
      | none => simp
      | some j =>
        simp only [Option.map_some']
        push_cast
        ring

/-- FindStringInArray with a non-null needle and fallback 0 computes the
spec-side first-match index with fallback 0. -/
theorem findStringInArray_some_eq (items : List String) (nm : String) :
    FindStringInArray items (some nm) 0 =
      (match specIndexOfMatch items nm with
       | some j => (j : Int)
       | none => 0) := by
  unfold FindStringInArray
  rw [findLoop_some_toFind]
  cases specIndexOfMatch items nm <;> simp

/-- FindStringInArray with a null needle returns the fallback 0. -/
theorem findStringInArray_none_eq (items : List String) :
    FindStringInArray items none 0 = 0 :=
  findLoop_none_toFind items 0 0

/-- C7: for a selected annotation whose type admits a color, the color
dropdown items are exactly gColors and the selection is the index of the
entry equal to the derived known-color name, falling back to 0 when the
color has no palette name; for a selected annotation with a non-empty
icon name whose type has an icon table, the icon dropdown items are
exactly that table and the selection is the index of the entry equal to
the icon name, falling back to 0. -/
theorem picker_items_and_selection (a : Annotation)
    (st : StaticCtrlState) (dd : DropDownCtrlState) :
    (a.type ∈ gAnnotsWithColor →
      ((ShowAnnotationsColor (some a) st dd).2.items = gColors ∧
       (ShowAnnotationsColor (some a) st dd).2.currentSelection =
         (match GetKnownColorName a.color with
          | some nm =>
            (match specIndexOfMatch gColors nm with
             | some j => (j : Int)
             | none => 0)
          | none => 0))) ∧
    (∀ ic, a.iconName ≠ "" → iconsForAnnotationType a.type = some ic →
      ((ShowAnnotationsIcon (some a) st dd).2.items = ic ∧
       (ShowAnnotationsIcon (some a) st dd).2.currentSelection =
         (match specIndexOfMatch ic a.iconName with
          | some j => (j : Int)
          | none => 0))) := by
  constructor
  · intro h
    have hb : IsAnnotationTypeInArray gAnnotsWithColor
        (selectedAnnotType (some a)) = true := by
      rw [IsAnnotationTypeInArray, List.any_eq_true]
      exact ⟨a.type, h, by simp [selectedAnnotType]⟩
    have heq : ShowAnnotationsColor (some a) st dd =
        ({ st with isVisible := true },
         { items := gColors,
           currentSelection :=
             FindStringInArray gColors (GetKnownColorName a.color) 0,
           isVisible := true }) := by
      unfold ShowAnnotationsColor
      rw [hb]
      rfl
    rw [heq]
    refine ⟨rfl, ?_⟩
    cases hkc : GetKnownColorName a.color with
    | none => exact findStringInArray_none_eq gColors
    | some nm => exact findStringInArray_some_eq gColors nm
  · intro ic hne hic
    have hie : (selectedIconName (some a)).isEmpty = false := by
      rw [Bool.eq_false_iff]
      intro hcontra
      have hiff := @String.isEmpty_iff (selectedIconName (some a))
      exact hne (hiff.mp hcontra)
    have hsi : selectedIcons (some a) = some ic := by
      unfold selectedIcons
      rw [hie]
      simpa using hic
    unfold ShowAnnotationsIcon
    rw [hsi]
    refine ⟨rfl, ?_⟩
    show FindStringInArray ic (some (selectedIconName (some a))) 0 = _
    have hsn : selectedIconName (some a) = a.iconName := rfl
    rw [hsn, findStringInArray_some_eq]

/-- C7 witness: a Text annotation with icon Note and the red palette
color selects entry 13 (Red) in the color picker and entry 5 (Note) in
the icon picker. -/
theorem picker_items_and_selection_witness :
    (ShowAnnotationsColor
        (some (mkAnnot AnnotationType.Text ("x") ("Note") 0xff0000ff))
        ⟨"", false⟩ ⟨[], 0, false⟩).2.currentSelection = 13 ∧
    (ShowAnnotationsIcon
        (some (mkAnnot AnnotationType.Text ("x") ("Note") 0xff0000ff))
        ⟨"", false⟩ ⟨[], 0, false⟩).2.currentSelection = 5 := by
  have h := picker_items_and_selection
    (mkAnnot AnnotationType.Text ("x") ("Note") 0xff0000ff)
    ⟨"", false⟩ ⟨[], 0, false⟩
  have h1 := (h.1 (by decide)).2
  have h2 := (h.2 gTextIcons (by decide) (by decide)).2
  constructor
  · rw [h1]; decide
  · rw [h2]; decide

end EditAnnotations

namespace EditCtrl

/-- C8: when an EN_CHANGE notification arrives, a registered
OnTextChanged callback is invoked with the current control text and the
handled flag it sets is copied back onto the event (stopping further
propagation when true); with no registered callback nothing is invoked
and the event is unchanged. -/
theorem handleWMCOMMAND_spec
    (cb : Option (EditTextChangedEvent → EditTextChangedEvent))
    (txt : String) (ev : WndEvent)
    (hcode : ev.hiwordWParam = EN_CHANGE) :
    (∀ f, cb = some f →
      HandleWM_COMMAND cb txt ev =
        (some txt,
         { ev with didHandle := (f { text := txt, didHandle := false }).didHandle })) ∧
    (cb = none → HandleWM_COMMAND cb txt ev = (none, ev)) := by
  constructor
  · rintro f rfl
    unfold HandleWM_COMMAND
    rw [if_pos hcode]
  · rintro rfl
    unfold HandleWM_COMMAND
    rw [if_pos hcode]

/-- C8 witness: a callback that marks the event handled is invoked with
the current text and the returned event carries the handled flag. -/
theorem handleWMCOMMAND_spec_witness :
    ((⟨0x0300, false⟩ : WndEvent).hiwordWParam = EN_CHANGE) ∧
    HandleWM_COMMAND (some (fun e => { e with didHandle := true })) ("hi")
        ⟨0x0300, false⟩ =
      (some ("hi"), ⟨0x0300, true⟩) := by
  refine ⟨rfl, ?_⟩
  have h := (handleWMCOMMAND_spec
    (some (fun e => { e with didHandle := true })) ("hi") ⟨0x0300, false⟩
    rfl).1 (fun e => { e with didHandle := true }) rfl
  rw [h]

end EditCtrl

namespace EditAnnotations

/-- Characterization of the GetKnownColorName scan over a suffix vs of
the value table starting at absolute index i: a some result is the name
at the least matching offset, a none result means no offset matches.
The length bound keeps every visited name index inside gColors. -/
theorem knownLoop_char (c2 : Nat) :
    ∀ (vs : List Nat) (i : Nat), i + vs.length ≤ gColors.length →
      (∀ s, getKnownColorNameLoop c2 vs i = some s →
        ∃ k, k < vs.length ∧ vs.get? k = some c2 ∧
          gColors.get? (i + k) = some s ∧
          ∀ k2, k2 < k → vs.get? k2 ≠ some c2) ∧
      (getKnownColorNameLoop c2 vs i = none →
        ∀ k, k < vs.length → vs.get? k ≠ some c2) := by
  intro vs
  induction vs with
  | nil =>
    intro i hle
    constructor
    · intro s hs
      simp [getKnownColorNameLoop] at hs
    · intro _ k hk
      simp at hk
  | cons v rest ih =>
    intro i hle
    have hlt : i < gColors.length := by
      simp only [List.length_cons] at hle
      omega
    constructor
    · intro s hs
      simp only [getKnownColorNameLoop] at hs
      by_cases h : c2 = v
      · rw [if_pos h] at hs
        refine ⟨0, by simp, by simp [h], by simpa using hs, ?_⟩
        intro k2 hk2
        omega
      · rw [if_neg h] at hs
        obtain ⟨hsome, -⟩ := ih (i + 1)
          (by simp only [List.length_cons] at hle; omega)
        obtain ⟨k, hk1, hk2, hk3, hk4⟩ := hsome s hs
        refine ⟨k + 1, by simpa using Nat.succ_lt_succ hk1,
          by simpa using hk2,
          by rw [show i + (k + 1) = (i + 1) + k from by omega]; exact hk3, ?_⟩
        intro k2 hk2lt
        cases k2 with
        | zero =>
          simp only [List.get?_cons_zero]
          intro hcontra
          injection hcontra with hcv
          exact h hcv.symm
        | succ k3 =>
          have := hk4 k3 (by omega)
          simpa using this
    · intro hnone k hk
      simp only [getKnownColorNameLoop] at hnone
      by_cases h : c2 = v
      · rw [if_pos h] at hnone
        exact absurd hnone (by rw [List.get?_eq_get hlt]; simp)
      · rw [if_neg h] at hnone
        obtain ⟨-, hnone2⟩ := ih (i + 1)
          (by simp only [List.length_cons] at hle; omega)
        cases k with
        | zero =>
          simp only [List.get?_cons_zero]
          intro hcontra
          injection hcontra with hcv
          exact h hcv.symm
        | succ k3 =>
          have := hnone2 hnone k3 (by simpa using hk)
          simpa using this

/-- C9: GetKnownColorName equals the name at the least index i >= 1 at
which gColorsValues holds the alpha-forced color, is null exactly when
no such index exists, is independent of the alpha channel of its
argument, and never yields the index-0 None sentinel name. -/
theorem getKnownColorName_spec (c : Nat) :
    (∀ s, GetKnownColorName c = some s →
      ∃ i, 1 ≤ i ∧ gColorsValues.get? i = some (ColorSetAlpha c 0xff) ∧
        gColors.get? i = some s ∧
        ∀ j, 1 ≤ j → j < i →
          gColorsValues.get? j ≠ some (ColorSetAlpha c 0xff)) ∧
    (GetKnownColorName c = none →
      ∀ i, 1 ≤ i → gColorsValues.get? i ≠ some (ColorSetAlpha c 0xff)) ∧
    (∀ a2, GetKnownColorName (ColorSetAlpha c a2) = GetKnownColorName c) ∧
    GetKnownColorName c ≠ some ("None") := by
  obtain ⟨hsome, hnone⟩ :=
    knownLoop_char (ColorSetAlpha c 0xff) (gColorsValues.drop 1) 1 (by decide)
  have hdlen : (gColorsValues.drop 1).length = 17 := by decide
  refine ⟨?_, ?_, ?_, ?_⟩
  · intro s hs
    obtain ⟨k, hk1, hk2, hk3, hk4⟩ := hsome s hs
    rw [List.get?_drop] at hk2
    refine ⟨1 + k, by omega, hk2, hk3, ?_⟩
    intro j hj1 hjlt
    have := hk4 (j - 1) (by omega)
    rw [List.get?_drop] at this
    rw [show (1 : Nat) + (j - 1) = j from by omega] at this
    exact this
  · intro hn i hi1
    have hvlen : gColorsValues.length = 18 := by decide
    by_cases hlt : i < gColorsValues.length
    · rw [hvlen] at hlt
      have := hnone hn (i - 1) (by rw [hdlen]; omega)
      rw [List.get?_drop] at this
      rw [show (1 : Nat) + (i - 1) = i from by omega] at this
      exact this
    · rw [List.get?_eq_none.mpr (by omega)]
      simp
  · intro a2
    unfold GetKnownColorName
    rw [show ColorSetAlpha (ColorSetAlpha c a2) 0xff = ColorSetAlpha c 0xff
      from by unfold ColorSetAlpha; omega]
  · intro hcontra
    obtain ⟨k, hk1, hk2, hk3, hk4⟩ := hsome ("None") hcontra
    rw [hdlen] at hk1
    interval_cases k <;> exact absurd hk3 (by decide)

/-- C9 witness: the red value with a zeroed alpha channel still resolves
to Red, at index 13, least among matches. -/
theorem getKnownColorName_spec_witness :
    GetKnownColorName 0x000000ff = some ("Red") ∧
    (∃ i, 1 ≤ i ∧
      gColorsValues.get? i = some (ColorSetAlpha 0x000000ff 0xff) ∧
      gColors.get? i = some ("Red") ∧
      ∀ j, 1 ≤ j → j < i →
        gColorsValues.get? j ≠ some (ColorSetAlpha 0x000000ff 0xff)) :=
  ⟨by decide, (getKnownColorName_spec 0x000000ff).1 ("Red") (by decide)⟩

/-- Any run of the FindStringInArray loop either returns the fallback or
an index between the running index and the end of the items. -/
theorem findLoop_bound (toFind : Option String) (v : Int) :
    ∀ (items : List String) (i : Int),
      findStringInArrayLoop toFind v items i = v ∨
      (i ≤ findStringInArrayLoop toFind v items i ∧
       findStringInArrayLoop toFind v items i < i + (items.length : Int)) := by
  intro items
  induction items with
  | nil => intro i; exact Or.inl rfl
  | cons s rest ih =>
    intro i
    simp only [findStringInArrayLoop]
    by_cases h : strEq (some s) toFind = true
    · rw [if_pos h]
      refine Or.inr ⟨le_refl i, ?_⟩
      simp only [List.length_cons]
      push_cast
      omega
    · rw [if_neg h]
      rcases ih (i + 1) with h1 | h2
      · exact Or.inl h1
      · refine Or.inr ⟨by omega, ?_⟩
        have h3 := h2.2
        simp only [List.length_cons] at h3 ⊢
        push_cast at h3 ⊢
        omega

/-- C10: FindStringInArray with fallback 0 on a non-empty table returns
an index that is non-negative and below the table length, so it is never
-1; in particular the selection index ShowAnnotationsColor passes to the
color dropdown (computed over gColors from a possibly null color name)
is a valid non-negative index and the idx == -1 branch is unreachable. -/
theorem findStringInArray_fallback_nonneg :
    (∀ (items : List String) (toFind : Option String), items ≠ [] →
      (0 ≤ FindStringInArray items toFind 0 ∧
       FindStringInArray items toFind 0 < (items.length : Int) ∧
       FindStringInArray items toFind 0 ≠ -1)) ∧
    (∀ c : Nat,
      0 ≤ FindStringInArray gColors (GetKnownColorName c) 0 ∧
      FindStringInArray gColors (GetKnownColorName c) 0 < (gColors.length : Int) ∧
      FindStringInArray gColors (GetKnownColorName c) 0 ≠ -1) := by
  have main : ∀ (items : List String) (toFind : Option String), items ≠ [] →
      (0 ≤ FindStringInArray items toFind 0 ∧
       FindStringInArray items toFind 0 < (items.length : Int) ∧
       FindStringInArray items toFind 0 ≠ -1) := by
    intro items toFind hne
    have hlen : 0 < items.length := List.length_pos.mpr hne
    have heq : FindStringInArray items toFind 0 =
        findStringInArrayLoop toFind 0 items 0 := rfl
    rcases findLoop_bound toFind 0 items 0 with h1 | h2
    · rw [heq, h1]
      refine ⟨le_refl 0, ?_, by omega⟩
      omega
    · rw [heq]
      refine ⟨h2.1, ?_, by omega⟩
      have h3 := h2.2
      omega
  exact ⟨main, fun c => main gColors (GetKnownColorName c) (by decide)⟩

/-- C10 witness: on gColors with a non-matching needle the fallback 0 is
returned, which is non-negative, in range and not -1. -/
theorem findStringInArray_fallback_nonneg_witness :
    (gColors ≠ ([] : List String)) ∧
    (0 ≤ FindStringInArray gColors (some ("NoSuchColor")) 0 ∧
     FindStringInArray gColors (some ("NoSuchColor")) 0 < (gColors.length : Int) ∧
     FindStringInArray gColors (some ("NoSuchColor")) 0 ≠ -1) :=
  ⟨by decide,
    findStringInArray_fallback_nonneg.1 gColors (some ("NoSuchColor")) (by decide)⟩

end EditAnnotations
